import Mathlib

/-!
Shallow embedding of the verify → ship release-gating pipeline:
the verification orchestrator (`scripts/verify.js`), the ship
orchestrator (`scripts/ship.js`) and the AI review script
(`scripts/ai-review.js`).  External collaborators (the filesystem,
the SHA-256 digest, spawned commands, the remote model endpoint) are
modelled as explicit parameters; everything the scripts themselves
compute is translated function-for-function.
-/

namespace Pipeline

/-! JSON values and a model of `JSON.parse`.

`ai-review.js` relies on the JavaScript built-in `JSON.parse`.  We model
JSON values as an inductive type and `JSON.parse` as a fuel-indexed
recursive-descent parser over the character list, returning `none`
exactly when the built-in would throw (trailing garbage included).
Numbers keep their lexeme so that truthiness can be decided.
-/

inductive Json where
  | null : Json
  | bool (b : Bool) : Json
  | num (lexeme : String) : Json
  | str (s : String) : Json
  | arr (xs : List Json) : Json
  | obj (fields : List (String × Json)) : Json
deriving Repr

mutual

def Json.beq : Json → Json → Bool
  | .null, .null => true
  | .bool a, .bool b => a == b
  | .num a, .num b => a == b
  | .str a, .str b => a == b
  | .arr a, .arr b => Json.beqList a b
  | .obj a, .obj b => Json.beqFields a b
  | _, _ => false

def Json.beqList : List Json → List Json → Bool
  | [], [] => true
  | a :: as, b :: bs => Json.beq a b && Json.beqList as bs
  | _, _ => false

def Json.beqFields : List (String × Json) → List (String × Json) → Bool
  | [], [] => true
  | (ka, va) :: as, (kb, vb) :: bs => ka == kb && Json.beq va vb && Json.beqFields as bs
  | _, _ => false

end

/-- JSON whitespace accepted by `JSON.parse`. -/
def jsonWs (c : Char) : Bool :=
  c = ' ' || c = '\t' || c = '\n' || c = '\r'

def skipJWs : List Char → List Char
  | [] => []
  | c :: rest => if jsonWs c then skipJWs rest else c :: rest

/-- Match a literal character sequence, returning the remainder. -/
def stripLit : List Char → List Char → Option (List Char)
  | [], cs => some cs
  | _, [] => none
  | l :: ls, c :: cs => if l = c then stripLit ls cs else none

def hexVal (c : Char) : Option Nat :=
  if '0' ≤ c ∧ c ≤ '9' then some (c.toNat - '0'.toNat)
  else if 'a' ≤ c ∧ c ≤ 'f' then some (c.toNat - 'a'.toNat + 10)
  else if 'A' ≤ c ∧ c ≤ 'F' then some (c.toNat - 'A'.toNat + 10)
  else none

/-- Parse the body of a JSON string (after the opening quote), handling
the escape sequences `JSON.parse` accepts. -/
def parseJStrBody (fuel : Nat) (acc : List Char) (cs : List Char) :
    Option (List Char × List Char) :=
  match fuel, cs with
  | 0, _ => none
  | _, [] => none
  | fuel + 1, c :: rest =>
    if c = '"' then some (acc, rest)
    else if c = '\\' then
      match rest with
      | [] => none
      | e :: rest2 =>
        if e = '"' then parseJStrBody fuel (acc ++ ['"']) rest2
        else if e = '\\' then parseJStrBody fuel (acc ++ ['\\']) rest2
        else if e = '/' then parseJStrBody fuel (acc ++ ['/']) rest2
        else if e = 'b' then parseJStrBody fuel (acc ++ ['\x08']) rest2
        else if e = 'f' then parseJStrBody fuel (acc ++ ['\x0c']) rest2
        else if e = 'n' then parseJStrBody fuel (acc ++ ['\n']) rest2
        else if e = 'r' then parseJStrBody fuel (acc ++ ['\r']) rest2
        else if e = 't' then parseJStrBody fuel (acc ++ ['\t']) rest2
        else if e = 'u' then
          match rest2 with
          | h1 :: h2 :: h3 :: h4 :: rest3 =>
            match hexVal h1, hexVal h2, hexVal h3, hexVal h4 with
            | some a, some b, some c2, some d =>
              let n := ((a * 16 + b) * 16 + c2) * 16 + d
              if n < 1114112 then
                parseJStrBody fuel (acc ++ [Char.ofNat n]) rest3
              else none
            | _, _, _, _ => none
          | _ => none
        else none
    else if c.toNat < 32 then none
    else parseJStrBody fuel (acc ++ [c]) rest

def isDigitChar (c : Char) : Bool := '0' ≤ c && c ≤ '9'

def takeDigits : List Char → List Char × List Char
  | [] => ([], [])
  | c :: rest =>
    if isDigitChar c then
      let (ds, rem) := takeDigits rest
      (c :: ds, rem)
    else ([], c :: rest)

/-- Parse a JSON number per the JSON grammar, returning its lexeme. -/
def parseJNum (cs : List Char) : Option (List Char × List Char) :=
  let (sign, cs1) :=
    match cs with
    | '-' :: rest => (['-'], rest)
    | _ => (([] : List Char), cs)
  let (intPart, cs2) := takeDigits cs1
  match intPart with
  | [] => none
  | d :: ds =>
    if d = '0' ∧ ds ≠ [] then none
    else
      let (fracPart, cs3) :=
        match cs2 with
        | '.' :: rest =>
          let (fd, rem) := takeDigits rest
          if fd = [] then ([], '.' :: rest) else ('.' :: fd, rem)
        | _ => (([] : List Char), cs2)
      if cs2 ≠ cs3 ∨ cs2.head? ≠ some '.' then
        let (expPart, cs4) :=
          match cs3 with
          | e :: rest =>
            if e = 'e' ∨ e = 'E' then
              match rest with
              | s :: rest2 =>
                if s = '+' ∨ s = '-' then
                  let (ed, rem) := takeDigits rest2
                  if ed = [] then ([], cs3) else (e :: s :: ed, rem)
                else
                  let (ed, rem) := takeDigits rest
                  if ed = [] then ([], cs3) else (e :: ed, rem)
              | [] => ([], cs3)
            else ([], cs3)
          | [] => ([], cs3)
        some (sign ++ intPart ++ fracPart ++ expPart, cs4)
      else none

mutual

def parseVal : Nat → List Char → Option (Json × List Char)
  | 0, _ => none
  | fuel + 1, cs =>
    match skipJWs cs with
    | [] => none
    | c :: rest =>
      if c = 'n' then
        match stripLit ['u', 'l', 'l'] rest with
        | some rem => some (.null, rem)
        | none => none
      else if c = 't' then
        match stripLit ['r', 'u', 'e'] rest with
        | some rem => some (.bool true, rem)
        | none => none
      else if c = 'f' then
        match stripLit ['a', 'l', 's', 'e'] rest with
        | some rem => some (.bool false, rem)
        | none => none
      else if c = '"' then
        match parseJStrBody (rest.length + 1) [] rest with
        | some (body, rem) => some (.str (String.mk body), rem)
        | none => none
      else if c = '[' then
        match skipJWs rest with
        | ']' :: rem => some (.arr [], rem)
        | other => parseArrItems fuel [] other
      else if c = '{' then
        match skipJWs rest with
        | '}' :: rem => some (.obj [], rem)
        | other => parseObjItems fuel [] other
      else if c = '-' ∨ isDigitChar c then
        match parseJNum (c :: rest) with
        | some (lex, rem) => some (.num (String.mk lex), rem)
        | none => none
      else none

def parseArrItems : Nat → List Json → List Char → Option (Json × List Char)
  | 0, _, _ => none
  | fuel + 1, acc, cs =>
    match parseVal fuel cs with
    | none => none
    | some (v, rest) =>
      match skipJWs rest with
      | ',' :: rest2 => parseArrItems fuel (acc ++ [v]) rest2
      | ']' :: rest2 => some (.arr (acc ++ [v]), rest2)
      | _ => none

def parseObjItems : Nat → List (String × Json) → List Char →
    Option (Json × List Char)
  | 0, _, _ => none
  | fuel + 1, acc, cs =>
    match skipJWs cs with
    | '"' :: rest =>
      match parseJStrBody (rest.length + 1) [] rest with
      | none => none
      | some (key, rest2) =>
        match skipJWs rest2 with
        | ':' :: rest3 =>
          match parseVal fuel rest3 with
          | none => none
          | some (v, rest4) =>
            match skipJWs rest4 with
            | ',' :: rest5 => parseObjItems fuel (acc ++ [(String.mk key, v)]) rest5
            | '}' :: rest5 => some (.obj (acc ++ [(String.mk key, v)]), rest5)
            | _ => none
        | _ => none
    | _ => none

end

/-- Model of `JSON.parse`: parse one JSON value, rejecting trailing
non-whitespace (as the built-in does). -/
def parseJson (s : String) : Option Json :=
  let cs := s.toList
  match parseVal (2 * cs.length + 4) cs with
  | some (v, rest) => if skipJWs rest = [] then some v else none
  | none => none

/-! Model of `parseGeminiResponse` (scripts/ai-review.js, lines 298-341).

Strategy 2 uses the JavaScript regular expression
```(?:json)?\s*\n({[\s\S]*?})\s*\n``` (leftmost match, greedy `(?:json)?`
and `\s*`, lazy group).  We compile that one pattern to explicit
backtracking functions over the character list.
-/

/-- JavaScript `\s` restricted to the characters that can occur here. -/
def jsWs (c : Char) : Bool :=
  c = ' ' || c = '\t' || c = '\n' || c = '\r' ||
  c = '\x0b' || c = '\x0c' || c = '\xa0'

/-- JavaScript `String.prototype.trim`: strip whitespace from both
ends. -/
def jsTrim (s : String) : String :=
  String.mk (((s.toList.dropWhile jsWs).reverse.dropWhile jsWs).reverse)

/-- JavaScript `substring(0, n)` / prefix truncation, counted in
characters. -/
def strTake (s : String) (n : Nat) : String :=
  String.mk (s.toList.take n)

/-- All ways to match `\s*\n` at the front of `cs`: the suffixes following
each newline inside the leading whitespace run, greediest (longest `\s*`)
first — the order the regex engine tries them in. -/
def wsNlSuffixes : List Char → List (List Char) → List (List Char)
  | [], acc => acc
  | c :: rest, acc =>
    if jsWs c then
      wsNlSuffixes rest (if c = '\n' then rest :: acc else acc)
    else acc

/-- Does `\s*\n` followed by three backticks match at the front of `cs`?
(The closing part of the fence pattern, after the group.) -/
def closesFence (cs : List Char) : Bool :=
  (wsNlSuffixes cs []).any fun after =>
    (stripLit ['`', '`', '`'] after).isSome

/-- Lazy search for the group terminator: at each position first try to
close the group (current char `\x7d` and the fence closer matches after it);
otherwise the char joins the group body.  `acc` holds the group so far. -/
def groupSearch (acc : List Char) : List Char → Option (List Char)
  | [] => none
  | c :: rest =>
    if c = '}' ∧ closesFence rest then some (acc ++ ['}'])
    else groupSearch (acc ++ [c]) rest

/-- After the optional language tag: match `\s*\n` (with backtracking),
then the lazy brace group. -/
def fenceFrom (cs : List Char) : Option (List Char) :=
  (wsNlSuffixes cs []).findSome? fun after =>
    match after with
    | '{' :: rest => groupSearch ['{'] rest
    | _ => none

/-- Try a full fence match anchored at the current position. -/
def tryFenceAt (cs : List Char) : Option (List Char) :=
  match stripLit ['`', '`', '`'] cs with
  | none => none
  | some afterTicks =>
    match stripLit ['j', 's', 'o', 'n'] afterTicks with
    | some afterJson =>
      match fenceFrom afterJson with
      | some g => some g
      | none => fenceFrom afterTicks
    | none => fenceFrom afterTicks

/-- Leftmost match of the fence pattern: the captured group of
`response.match(...)` in strategy 2, or `none`. -/
def fencedMatch : List Char → Option (List Char)
  | [] => none
  | c :: rest =>
    match tryFenceAt (c :: rest) with
    | some g => some g
    | none => fencedMatch rest

/-- Strategy 3 scan (ai-review.js lines 317-332): starting at the first
opening brace, update a depth counter on every `\x7b` / `\x7d`; the scan
stops at the first return to depth zero, yielding the number of characters
up to and including that closing brace. -/
def balancedLen (depth : Int) (count : Nat) : List Char → Option Nat
  | [] => none
  | c :: rest =>
    let depth2 := if c = '{' then depth + 1 else if c = '}' then depth - 1 else depth
    if depth2 = 0 then some (count + 1)
    else balancedLen depth2 (count + 1) rest

/-- Index of the first `\x7b`, like `response.indexOf`. -/
def firstBraceIdx : List Char → Option Nat
  | [] => none
  | c :: rest =>
    if c = '{' then some 0
    else (firstBraceIdx rest).map (· + 1)

/-- Strategy 1: `JSON.parse(response.trim())`. -/
def strategy1 (response : String) : Option Json :=
  parseJson (jsTrim response)

/-- Strategy 2: parse the interior of the first fenced code block. -/
def strategy2 (response : String) : Option Json :=
  match fencedMatch response.toList with
  | some g => parseJson (String.mk g)
  | none => none

/-- Strategy 3: depth-tracked brace balancing from the first `\x7b`; a
single parse attempt at the first return to depth zero. -/
def strategy3 (response : String) : Option Json :=
  let cs := response.toList
  match firstBraceIdx cs with
  | none => none
  | some start =>
    let tail := cs.drop start
    match balancedLen 0 0 tail with
    | some n => parseJson (String.mk (tail.take n))
    | none => none

/-- The raw-text fallback verdict produced when every strategy fails. -/
def rawFallback (response : String) : Json :=
  .obj [("summary", .str response), ("issues", .arr []), ("raw", .bool true)]

/-- `parseGeminiResponse` (ai-review.js lines 298-341): the strategies are
tried strictly in order, first success wins; if all fail the raw-text
fallback verdict is returned (never an exception). -/
def parseGeminiResponse (response : String) : Json :=
  match strategy1 response with
  | some v => v
  | none =>
    match strategy2 response with
    | some v => v
    | none =>
      match strategy3 response with
      | some v => v
      | none => rawFallback response

/-! Model of the review-pass aggregation in ai-review.js `main`
(lines 387-464).  The two `callGemini` round-trips are external
collaborators: each is either `.ok text` (the model replied) or
`.error message` (timeout, transport error, or API error — the promise
rejected and the `catch` block stored `\x7berror: message\x7d`).
-/

/-- JavaScript property access `o.k`: the last binding wins (as
`JSON.parse` keeps the last duplicate key); `none` for a missing field
or a non-object. -/
def jsGet (j : Json) (key : String) : Option Json :=
  match j with
  | .obj fields => (fields.reverse.find? fun kv => kv.1 == key).map Prod.snd
  | _ => none

/-- Is every mantissa digit of a JSON number lexeme zero? -/
def zeroLexeme (lex : String) : Bool :=
  let mantissa := lex.toList.takeWhile fun c => c != 'e' && c != 'E'
  mantissa.all fun c => !isDigitChar c || c == '0'

/-- JavaScript truthiness of a JSON value. -/
def jsTruthy : Json → Bool
  | .null => false
  | .bool b => b
  | .num lex => !zeroLexeme lex
  | .str s => s != ""
  | .arr _ => true
  | .obj _ => true

/-- Outcome of one `callGemini` invocation. -/
abbrev GeminiCall := Except String String

/-- The review object stored for one prompt: the parsed response on
success, or `\x7berror: message\x7d` when the call failed (ai-review.js
lines 406-426, 434-454). -/
def reviewOf : GeminiCall → Json
  | .ok text => parseGeminiResponse text
  | .error msg => .obj [("error", .str msg)]

/-- `securityPass` (ai-review.js line 458): the review passes when
`overallRisk` is absent or falsy, or is exactly LOW or MEDIUM. -/
def securityPassOf (securityReview : Json) : Bool :=
  match jsGet securityReview "overallRisk" with
  | none => true
  | some v => !jsTruthy v || Json.beq v (.str "LOW") || Json.beq v (.str "MEDIUM")

/-- `qualityPass` (ai-review.js line 460): passes when the quality review
was not run, or `overallQuality` is absent or falsy, or is in the
acceptable set. -/
def qualityPassOf (qualityReview : Option Json) : Bool :=
  match qualityReview with
  | none => true
  | some qr =>
    match jsGet qr "overallQuality" with
    | none => true
    | some v =>
      !jsTruthy v || Json.beq v (.str "EXCELLENT") || Json.beq v (.str "GOOD") ||
        Json.beq v (.str "ACCEPTABLE")

/-- The `results.summary` written by ai-review.js `main`. -/
structure AiSummary where
  securityRisk : Json
  codeQuality : Json
  passesReview : Bool
deriving Repr

/-- ai-review.js `main`, reduced to its persisted summary: parse (or
error-wrap) each review, copy a truthy `overallRisk` / `overallQuality`
into the summary (else it stays UNKNOWN), and aggregate `passesReview`.
When `securityFocus` is set the quality review is never run
(`results.qualityReview` stays null). -/
def aiReviewMain (securityFocus : Bool) (secCall : GeminiCall)
    (qualCall : GeminiCall) : AiSummary :=
  let securityReview := reviewOf secCall
  let qualityReview : Option Json :=
    if securityFocus then none else some (reviewOf qualCall)
  let securityRisk :=
    match jsGet securityReview "overallRisk" with
    | some v => if jsTruthy v then v else .str "UNKNOWN"
    | none => .str "UNKNOWN"
  let codeQuality :=
    match qualityReview with
    | none => .str "UNKNOWN"
    | some qr =>
      match jsGet qr "overallQuality" with
      | some v => if jsTruthy v then v else .str "UNKNOWN"
      | none => .str "UNKNOWN"
  { securityRisk := securityRisk
    codeQuality := codeQuality
    passesReview := securityPassOf securityReview && qualityPassOf qualityReview }

/-! Model of scripts/verify.js.  Spawned commands and the filesystem are
external collaborators passed in explicitly. -/

/-- What `execSync` did for one command: clean exit with stdout, or a
thrown error carrying optional captured stdout/stderr and a message. -/
inductive ExecOutcome where
  | ok (stdout : String)
  | err (stdout : Option String) (stderr : Option String) (message : String)
deriving Repr

/-- The value `runCommand` returns (verify.js lines 92-107). -/
structure CmdResult where
  success : Bool
  output : String
  error : Option String := none
deriving Repr, DecidableEq

/-- `runCommand` (verify.js lines 92-107): a clean exit yields success
with trimmed stdout; a thrown error is converted to a failure result
carrying the captured stdout (empty when absent or empty) and the
trimmed stderr when non-empty, else the error message.  No exception
escapes. -/
def runCommand : ExecOutcome → CmdResult
  | .ok stdout => { success := true, output := jsTrim stdout }
  | .err stdout stderr message =>
    { success := false
      output := match stdout with
        | some s => if s = "" then "" else jsTrim s
        | none => ""
      error := some (match stderr with
        | some s => if s = "" then message else jsTrim s
        | none => message) }

/-- JavaScript `String.prototype.includes`. -/
def containsSub (s sub : String) : Bool :=
  (List.range (s.toList.length + 1)).any fun i =>
    (s.toList.drop i).take sub.toList.length == sub.toList

/-- The audit gate object (verify.js lines 158-168): `success` is true
when the captured output mentions neither high nor critical, OR the
command itself exited cleanly. -/
structure AuditOutcome where
  success : Bool
  output : String
deriving Repr, DecidableEq

def runAudit (result : CmdResult) : AuditOutcome :=
  let output := result.output
  let hasHighCritical := containsSub output "high" || containsSub output "critical"
  { success := !hasHighCritical || result.success
    output := strTake output 500 }

/-- A gate object as read back by the summary: JavaScript truthiness of
the `success` and `skipped` fields (absent fields read as false). -/
structure GateOutcome where
  success : Bool
  skipped : Bool
deriving Repr, DecidableEq

/-- The ways `runAiReview` (verify.js lines 170-241) can resolve. -/
inductive AiReviewRun where
  /-- `--skip-ai-review` was given. -/
  | skippedFlag
  /-- `GEMINI_API_KEY` is unset. -/
  | noApiKey
  /-- scripts/ai-review.js is not on disk. -/
  | scriptMissing
  /-- The child process ran (either exit code) and a readable results
  file reported `passesReview`. -/
  | ran (passesReview : Bool)
  /-- The child exited zero but left no results file. -/
  | ranNoResults
  /-- The child threw (for example the 2-minute timeout) and no readable
  results file exists. -/
  | failedNoResults (message : String)
deriving Repr

def runAiReview : AiReviewRun → GateOutcome
  | .skippedFlag => { success := false, skipped := true }
  | .noApiKey => { success := false, skipped := true }
  | .scriptMissing => { success := false, skipped := true }
  | .ran passesReview => { success := passesReview, skipped := false }
  | .ranNoResults => { success := true, skipped := false }
  | .failedNoResults _ => { success := false, skipped := false }

/-- `verifyState.summary` (verify.js lines 281-292). -/
structure VerifySummary where
  filesHashed : Nat
  testsPass : Bool
  lintPass : Bool
  auditPass : Bool
  aiReviewPass : Bool
  overallPass : Bool
deriving Repr, DecidableEq

def mkSummary (tests lint : GateOutcome) (audit : AuditOutcome)
    (aiReview : GateOutcome) (filesHashed : Nat) : VerifySummary :=
  { filesHashed := filesHashed
    testsPass := tests.success || tests.skipped
    lintPass := lint.success || lint.skipped
    auditPass := audit.success
    aiReviewPass := aiReview.success || aiReview.skipped
    overallPass := (tests.success || tests.skipped) &&
                   (lint.success || lint.skipped) &&
                   audit.success &&
                   (aiReview.success || aiReview.skipped) }

/-! File hashing and the snapshot (verify.js lines 45-53 and 255-261). -/

/-- Byte content of a file. -/
abbrev ByteSeq := List Nat

/-- A path on disk is absent, present but unreadable (`readFileSync`
throws), or readable with some content. -/
inductive FileState where
  | absent
  | unreadable
  | content (bytes : ByteSeq)
deriving Repr, DecidableEq

/-- The filesystem collaborator. -/
abbrev FS := String → FileState

/-- `fs.existsSync`. -/
def existsSync (fs : FS) (path : String) : Bool :=
  match fs path with
  | .absent => false
  | _ => true

/-- `hashFile` (verify.js lines 45-53, identically ship.js lines 36-43):
the hex digest of the file bytes, or null when the read fails.  The
digest function itself (SHA-256) is an external collaborator. -/
def hashFile (fs : FS) (digest : ByteSeq → String) (path : String) :
    Option String :=
  match fs path with
  | .content bytes => some (digest bytes)
  | _ => none

/-- One iteration of the `fileHashes` loop (verify.js lines 256-261):
`if (hash) fileHashes[file] = hash` — a null or empty hash adds
nothing. -/
def hashStep (fs : FS) (digest : ByteSeq → String)
    (acc : List (String × String)) (file : String) : List (String × String) :=
  match hashFile fs digest file with
  | some h => if h = "" then acc else acc ++ [(file, h)]
  | none => acc

/-- The `fileHashes` loop (verify.js lines 255-261): files whose hash is
null or empty are silently left out of the snapshot. -/
def buildFileHashes (files : List String) (fs : FS)
    (digest : ByteSeq → String) : List (String × String) :=
  files.foldl (hashStep fs digest) []

/-! Model of scripts/ship.js. -/

def DEFAULT_STATE_PATH : String := ".workflow/state/verify-state.json"

structure ShipOptions where
  createPR : Bool
  dryRun : Bool
  statePath : String
deriving Repr, DecidableEq

/-- Argument parsing of ship.js (lines 28-33).  Note that the `options`
object fixes `statePath` to the default: no argument is consulted for
it. -/
def parseShipOptions (args : List String) : ShipOptions :=
  { createPR := args.contains "--create-pr"
    dryRun := args.contains "--dry-run"
    statePath := DEFAULT_STATE_PATH }

/-- The fields of the loaded verification record that ship.js reads. -/
structure VerifyStateRec where
  hashes : List (String × String)
  overallPass : Bool
  testsPass : Bool
  lintPass : Bool
  auditPass : Bool
deriving Repr

/-- One entry of `results.modified` (ship.js lines 101-105). -/
structure ModEntry where
  file : String
  expected : String
  actual : String
deriving Repr, DecidableEq

/-- Classification of one snapshot entry by the integrity loop
(ship.js lines 91-107). -/
inductive FileCheck where
  | verified
  | modified (entry : ModEntry)
  | missing
deriving Repr, DecidableEq

/-- `currentHash?.substring(0, 8) + '...' || 'null'` — the optional
chaining makes the concatenation `"undefined..."` when the hash is
null, which is truthy, so the `|| 'null'` arm is dead. -/
def actualDisplay : Option String → String
  | some h => strTake h 8 ++ "..."
  | none => "undefined..."

def checkFile (fs : FS) (digest : ByteSeq → String)
    (path expectedHash : String) : FileCheck :=
  if existsSync fs path = false then .missing
  else if hashFile fs digest path = some expectedHash then .verified
  else .modified
    { file := path
      expected := strTake expectedHash 8 ++ "..."
      actual := actualDisplay (hashFile fs digest path) }

/-- The value `verifyFileIntegrity` returns (ship.js lines 81-110):
each snapshot entry is classified independently, in order. -/
structure IntegrityResults where
  verified : Nat
  modified : List ModEntry
  missing : List String
  total : Nat
deriving Repr, DecidableEq

def verifyFileIntegrity (hashes : List (String × String)) (fs : FS)
    (digest : ByteSeq → String) : IntegrityResults :=
  { verified := (hashes.filter fun pe =>
      checkFile fs digest pe.1 pe.2 == .verified).length
    modified := hashes.filterMap fun pe =>
      match checkFile fs digest pe.1 pe.2 with
      | .modified entry => some entry
      | _ => none
    missing := hashes.filterMap fun pe =>
      match checkFile fs digest pe.1 pe.2 with
      | .missing => some pe.1
      | _ => none
    total := hashes.length }

/-- The version-control and hosting collaborators consulted by
`createPullRequest`. -/
structure GitEnv where
  currentBranch : Option String
  defaultBranch : String
  ghAvailable : Bool
  prCreateOk : Bool
deriving Repr

/-- `createPullRequest` (ship.js lines 141-207), reduced to: did it
succeed, and did the dry-run echo of the planned gh command happen. -/
def createPullRequest (opts : ShipOptions) (git : GitEnv) : Bool × Bool :=
  match git.currentBranch with
  | none => (false, false)
  | some branch =>
    if branch = git.defaultBranch then (false, false)
    else if git.ghAvailable = false then (false, false)
    else if opts.dryRun then (true, true)
    else (git.prCreateOk, false)

/-- Observable outcome of one ship.js `main` run: the exit code, the
integrity results when the integrity check was reached, whether
`createPullRequest` was invoked, and whether its dry-run echo of the
planned gh command was printed. -/
structure ShipOutcome where
  exitCode : Nat
  integrity : Option IntegrityResults
  prAttempted : Bool
  dryRunEcho : Bool
deriving Repr, DecidableEq

/-- ship.js `main` (lines 210-301), after the record has been loaded:
check the four gate flags (lines 239-253), then file integrity
(lines 256-279), then optionally create the PR. -/
def shipMain (opts : ShipOptions) (state : VerifyStateRec) (fs : FS)
    (digest : ByteSeq → String) (git : GitEnv) : ShipOutcome :=
  let gatesPass := state.overallPass && state.testsPass &&
                   state.lintPass && state.auditPass
  if gatesPass = false then
    { exitCode := 1, integrity := none, prAttempted := false, dryRunEcho := false }
  else
    let results := verifyFileIntegrity state.hashes fs digest
    if results.modified ≠ [] then
      { exitCode := 1, integrity := some results,
        prAttempted := false, dryRunEcho := false }
    else if results.missing ≠ [] then
      { exitCode := 1, integrity := some results,
        prAttempted := false, dryRunEcho := false }
    else if opts.createPR then
      let (prSuccess, echoed) := createPullRequest opts git
      { exitCode := if prSuccess = false ∧ opts.dryRun = false then 1 else 0
        integrity := some results, prAttempted := true, dryRunEcho := echoed }
    else
      { exitCode := 0, integrity := some results,
        prAttempted := false, dryRunEcho := false }

/-! Predicates naming the acceptable review tiers, written from the
specification text ("risk in LOW, MEDIUM passes; quality in EXCELLENT,
GOOD, ACCEPTABLE passes"), used to compare the code's pass computation
against the specified threshold. -/

/-- When the review verdict carries a truthy `overallRisk`, it must be
LOW or MEDIUM. -/
def riskTierAcceptable (review : Json) : Prop :=
  ∀ v, jsGet review "overallRisk" = some v →
    jsTruthy v = false ∨ v = .str "LOW" ∨ v = .str "MEDIUM"

/-- When the review verdict carries a truthy `overallQuality`, it must
be EXCELLENT, GOOD or ACCEPTABLE. -/
def qualityTierAcceptable (review : Json) : Prop :=
  ∀ v, jsGet review "overallQuality" = some v →
    jsTruthy v = false ∨ v = .str "EXCELLENT" ∨ v = .str "GOOD" ∨
      v = .str "ACCEPTABLE"

/-! Concrete fixtures used by the claim theorems and their witnesses. -/

/-- A structured review payload whose string value contains nested
(balanced) brace pairs. -/
def payloadC3 : String :=
  "\x7b\"summary\": \"Use \x7ba\x7d and \x7bb\x7d blocks\", \"issues\": [], \"overallRisk\": \"LOW\"\x7d"

/-- The same payload wrapped in a fenced code block. -/
def fencedC3 : String :=
  "Sure, here you go:\n```json\n" ++ payloadC3 ++ "\n```\nDone."

/-- The same payload embedded in explanatory prose, no fence. -/
def proseC3 : String :=
  "Here is my review.\n\nThe verdict " ++ payloadC3 ++ "\nHope this helps."

/-- The structured value all three inputs should yield. -/
def verdictC3 : Json :=
  .obj [("summary", .str "Use \x7ba\x7d and \x7bb\x7d blocks"),
        ("issues", .arr []),
        ("overallRisk", .str "LOW")]

/-- The timeout message produced by `callGemini` after 30 seconds. -/
def timeoutMsg : String := "Gemini API request timed out after 30 seconds"

/-- A review gate object in its skipped state. -/
def gateSkipped : GateOutcome := { success := false, skipped := true }

/-- A gate object in its passed state. -/
def gatePassed : GateOutcome := { success := true, skipped := false }

/-- An audit command that exited cleanly with no severe finding in its
output. -/
def auditCleanOk : CmdResult :=
  { success := true, output := "found 0 vulnerabilities", error := none }

/-- An audit command that exited nonzero although its output names no
high/critical finding. -/
def auditCleanFail : CmdResult :=
  { success := false, output := "found 0 vulnerabilities",
    error := some "npm exited 1" }

/-- A security-review response that no strategy can parse. -/
def rawSecResponse : String := "Everything looks secure to me."

/-- A quality-review response that no strategy can parse. -/
def rawQualResponse : String := "Code is fine."

/-- A git environment in which PR creation could proceed. -/
def gitBasic : GitEnv :=
  { currentBranch := some "feature", defaultBranch := "main",
    ghAvailable := true, prCreateOk := true }

/-- A filesystem holding only a.txt, with content that hashes to a
digest other than the recorded one. -/
def fsCex : FS := fun p => if p = "a.txt" then .content [1] else .absent

/-- A digest collaborator for the counterexample runs. -/
def digCex : ByteSeq → String := fun _ => "eeeeeeee3333"

/-- A record listing a.txt with a digest that no longer matches, whose
gate summary failed verification. -/
def stateCex : VerifyStateRec :=
  { hashes := [("a.txt", "aaaaaaaa1111")], overallPass := false,
    testsPass := true, lintPass := true, auditPass := true }

/-- A record with all gates passing, listing a modified file (a.txt)
and a missing file (b.txt). -/
def stateMod : VerifyStateRec :=
  { hashes := [("a.txt", "aaaaaaaa1111"), ("b.txt", "dddddddd2222")],
    overallPass := true, testsPass := true, lintPass := true,
    auditPass := true }

/-- The file list discovered by a verify run in which bad.txt exists
but cannot be read. -/
def filesW10 : List String := ["bad.txt", "good.txt"]

/-- Filesystem for that run: good.txt is readable, bad.txt is not. -/
def fsW10 : FS := fun p =>
  if p = "good.txt" then .content [2]
  else if p = "bad.txt" then .unreadable
  else .absent

/-- Digest collaborator for that run. -/
def digW10 : ByteSeq → String := fun _ => "abcd1234"

end Pipeline

namespace Pipeline

/-! Shared helper lemmas. -/

theorem beq_str_right {v : Json} {s : String} :
    Json.beq v (.str s) = true ↔ v = .str s := by
  cases v <;> simp [Json.beq]

theorem securityPassOf_iff (j : Json) :
    securityPassOf j = true ↔ riskTierAcceptable j := by
  cases h : jsGet j "overallRisk" with
  | none => simp [securityPassOf, riskTierAcceptable, h]
  | some v =>
    simp [securityPassOf, riskTierAcceptable, h, Bool.or_eq_true,
      Bool.not_eq_true', beq_str_right, forall_eq_apply_imp_iff, or_assoc]

theorem qualityTier_iff (qr : Json) :
    qualityPassOf (some qr) = true ↔ qualityTierAcceptable qr := by
  cases h : jsGet qr "overallQuality" with
  | none => simp [qualityPassOf, qualityTierAcceptable, h]
  | some v =>
    simp [qualityPassOf, qualityTierAcceptable, h, Bool.or_eq_true,
      Bool.not_eq_true', beq_str_right, or_assoc]


/-! Claim theorems. -/

/-- C1: evaluation of the code at the failing input.  Both Gemini calls
fail (the 30-second timeout), the caller did not opt out of review, every
other gate passes — yet the code computes `passesReview = true`, the
verify summary records `aiReviewPass = true` and `overallPass = true`:
the failed review is NOT recorded as a failed gate, contradicting the
claim. -/
theorem review_transport_failure_passes :
    (aiReviewMain false (.error timeoutMsg) (.error timeoutMsg)).passesReview
        = true ∧
    (mkSummary gateSkipped gateSkipped (runAudit auditCleanOk)
        (runAiReview (.ran (aiReviewMain false (.error timeoutMsg)
          (.error timeoutMsg)).passesReview)) 0).aiReviewPass = true ∧
    (mkSummary gateSkipped gateSkipped (runAudit auditCleanOk)
        (runAiReview (.ran (aiReviewMain false (.error timeoutMsg)
          (.error timeoutMsg)).passesReview)) 0).overallPass = true :=
  ⟨rfl, rfl, rfl⟩

/-- C2 counterexample: a verify run whose review responses are
unparseable prose.  The parsed verdicts are the raw fallback, carrying
no `overallRisk`, so the recorded risk tier is UNKNOWN — outside
LOW, MEDIUM — yet `overallPass = true`, refuting the claimed
equivalence as stated. -/
theorem overallPass_unknown_tier :
    (mkSummary gateSkipped gateSkipped (runAudit auditCleanOk)
        (runAiReview (.ran (aiReviewMain false (.ok rawSecResponse)
          (.ok rawQualResponse)).passesReview)) 0).overallPass = true ∧
    (aiReviewMain false (.ok rawSecResponse)
        (.ok rawQualResponse)).securityRisk = .str "UNKNOWN" ∧
    (aiReviewMain false (.ok rawSecResponse)
        (.ok rawQualResponse)).securityRisk ≠ .str "LOW" ∧
    (aiReviewMain false (.ok rawSecResponse)
        (.ok rawQualResponse)).securityRisk ≠ .str "MEDIUM" := by
  refine ⟨rfl, rfl, ?_, ?_⟩
  · rw [show (aiReviewMain false (.ok rawSecResponse)
        (.ok rawQualResponse)).securityRisk = .str "UNKNOWN" from rfl]
    simp
  · rw [show (aiReviewMain false (.ok rawSecResponse)
        (.ok rawQualResponse)).securityRisk = .str "UNKNOWN" from rfl]
    simp

/-- C2 (amended): `overallPass` is true exactly when the tests, lint and
AI-review gates each passed or were skipped and the audit gate passed;
and when the review ran, its pass flag is true exactly when every review
tier it produced is absent, falsy, or inside the acceptable set
(risk LOW or MEDIUM; quality EXCELLENT, GOOD or ACCEPTABLE) — the
quality tier being constrained only when the caller did not restrict the
review to security. -/
theorem overallPass_characterization :
    (∀ (tests lint : GateOutcome) (audit : AuditOutcome)
        (aiReview : GateOutcome) (n : Nat),
      (mkSummary tests lint audit aiReview n).overallPass = true ↔
        ((mkSummary tests lint audit aiReview n).testsPass = true ∧
         (mkSummary tests lint audit aiReview n).lintPass = true ∧
         (mkSummary tests lint audit aiReview n).auditPass = true ∧
         (mkSummary tests lint audit aiReview n).aiReviewPass = true)) ∧
    (∀ (securityFocus : Bool) (secCall qualCall : GeminiCall),
      (aiReviewMain securityFocus secCall qualCall).passesReview = true ↔
        (riskTierAcceptable (reviewOf secCall) ∧
         (securityFocus = true ∨ qualityTierAcceptable (reviewOf qualCall)))) := by
  constructor
  · intro tests lint audit aiReview n
    simp [mkSummary, Bool.and_eq_true, and_assoc]
  · intro securityFocus secCall qualCall
    cases securityFocus with
    | true =>
      simp [aiReviewMain, Bool.and_eq_true, qualityPassOf, securityPassOf_iff]
    | false =>
      simp [aiReviewMain, Bool.and_eq_true, securityPassOf_iff,
        qualityTier_iff]

/-- C6: the audit gate succeeds whenever the captured output mentions
neither high nor critical, even when the audit command itself exited
with an error; that success value is recorded as `auditPass`, and a
false `auditPass` forces `overallPass` to false. -/
theorem audit_text_classification (r : CmdResult)
    (tests lint aiReview : GateOutcome) (n : Nat)
    (hHigh : containsSub r.output "high" = false)
    (hCrit : containsSub r.output "critical" = false) :
    (runAudit r).success = true ∧
    (mkSummary tests lint (runAudit r) aiReview n).auditPass
        = (runAudit r).success ∧
    (∀ audit : AuditOutcome, audit.success = false →
      (mkSummary tests lint audit aiReview n).overallPass = false) := by
  refine ⟨?_, rfl, ?_⟩
  · simp [runAudit, hHigh, hCrit]
  · intro audit hfail
    simp [mkSummary, hfail]

/-- C6 witness: an audit command that exited nonzero but whose output
names no high/critical finding still yields a passing audit gate, wired
into the summary as `auditPass`. -/
theorem audit_text_classification_witness :
    (runAudit auditCleanFail).success = true ∧
    (mkSummary gatePassed gatePassed (runAudit auditCleanFail)
        gatePassed 3).auditPass = (runAudit auditCleanFail).success ∧
    (∀ audit : AuditOutcome, audit.success = false →
      (mkSummary gatePassed gatePassed audit gatePassed 3).overallPass
        = false) :=
  audit_text_classification auditCleanFail gatePassed gatePassed gatePassed 3
    (by decide) (by decide)

/-- C7: when all three extraction strategies fail, `parseGeminiResponse`
still returns a value — the degraded verdict whose summary is the raw
input text, whose issue list is empty, and which is marked raw. -/
theorem parse_raw_fallback (s : String)
    (h1 : strategy1 s = none) (h2 : strategy2 s = none)
    (h3 : strategy3 s = none) :
    parseGeminiResponse s =
      .obj [("summary", .str s), ("issues", .arr []), ("raw", .bool true)] := by
  unfold parseGeminiResponse
  rw [h1, h2, h3]
  rfl

/-- C7 witness: a plain prose response, on which every strategy fails,
yields exactly the raw-text fallback verdict. -/
theorem parse_raw_fallback_witness :
    strategy1 rawSecResponse = none ∧
    parseGeminiResponse rawSecResponse =
      .obj [("summary", .str rawSecResponse),
            ("issues", .arr []), ("raw", .bool true)] :=
  ⟨rfl, parse_raw_fallback rawSecResponse rfl rfl rfl⟩

/-- C8: the ship script's usage text documents a state-path option, but
argument parsing never consults it: with that option on the command
line, the state path stays the default, not the requested path. -/
theorem state_flag_ignored :
    (parseShipOptions ["--state", "custom-state.json"]).statePath
        = ".workflow/state/verify-state.json" ∧
    (parseShipOptions ["--state", "custom-state.json"]).statePath
        ≠ "custom-state.json" :=
  ⟨rfl, by decide⟩

/-- C9: `runCommand` converts every invocation outcome into a result
value — success with trimmed output on a clean exit; on a thrown error a
failure result carrying the captured stdout (empty when absent) and the
trimmed stderr when non-empty, else the error message.  No exception
propagates. -/
theorem runCommand_returns_result (o : ExecOutcome) :
    match o with
    | .ok stdout =>
        runCommand o =
          { success := true, output := jsTrim stdout, error := none }
    | .err stdout stderr message =>
        (runCommand o).success = false ∧
        (runCommand o).output = jsTrim (stdout.getD "") ∧
        (runCommand o).error =
          some (if (stderr.getD "") = "" then message
                else jsTrim (stderr.getD "")) := by
  cases o with
  | ok stdout => rfl
  | err stdout stderr message =>
    refine ⟨rfl, ?_, ?_⟩
    · cases stdout with
      | none => rfl
      | some s =>
        by_cases hs : s = ""
        · simp [runCommand, hs, jsTrim]
        · simp [runCommand, hs]
    · cases stderr with
      | none => rfl
      | some s =>
        by_cases hs : s = ""
        · simp [runCommand, hs]
        · simp [runCommand, hs]

/-! Helper lemmas about the integrity check and the ship flow. -/

theorem checkFile_modified_file {fs : FS} {digest : ByteSeq → String}
    {p eh : String} {e : ModEntry}
    (h : checkFile fs digest p eh = .modified e) : e.file = p := by
  unfold checkFile at h
  split at h
  · exact absurd h (by simp)
  · split at h
    · exact absurd h (by simp)
    · cases h
      rfl

theorem modified_mem_of_checkFile {hashes : List (String × String)}
    {fs : FS} {digest : ByteSeq → String} {f eh : String} {e : ModEntry}
    (hmem : (f, eh) ∈ hashes)
    (hc : checkFile fs digest f eh = .modified e) :
    e ∈ (verifyFileIntegrity hashes fs digest).modified := by
  simp only [verifyFileIntegrity, List.mem_filterMap]
  exact ⟨(f, eh), hmem, by rw [hc]⟩

theorem missing_mem_of_checkFile {hashes : List (String × String)}
    {fs : FS} {digest : ByteSeq → String} {f eh : String}
    (hmem : (f, eh) ∈ hashes)
    (hc : checkFile fs digest f eh = .missing) :
    f ∈ (verifyFileIntegrity hashes fs digest).missing := by
  simp only [verifyFileIntegrity, List.mem_filterMap]
  exact ⟨(f, eh), hmem, by rw [hc]⟩

theorem missing_subset_keys {hashes : List (String × String)} {fs : FS}
    {digest : ByteSeq → String} {x : String}
    (h : x ∈ (verifyFileIntegrity hashes fs digest).missing) :
    ∃ eh, (x, eh) ∈ hashes := by
  simp only [verifyFileIntegrity, List.mem_filterMap] at h
  obtain ⟨⟨p1, p2⟩, hpe, hcase⟩ := h
  refine ⟨p2, ?_⟩
  revert hcase
  cases checkFile fs digest p1 p2 <;> intro hcase <;> simp_all

theorem modified_file_keys {hashes : List (String × String)} {fs : FS}
    {digest : ByteSeq → String} {e : ModEntry}
    (h : e ∈ (verifyFileIntegrity hashes fs digest).modified) :
    ∃ eh, (e.file, eh) ∈ hashes := by
  simp only [verifyFileIntegrity, List.mem_filterMap] at h
  obtain ⟨pe, hpe, hcase⟩ := h
  have hck : checkFile fs digest pe.1 pe.2 = .modified e := by
    revert hcase
    cases checkFile fs digest pe.1 pe.2 <;> intro hcase <;> simp_all
  have := checkFile_modified_file hck
  exact ⟨pe.2, by rw [this]; exact hpe⟩

theorem shipMain_gate_fail {opts : ShipOptions} {state : VerifyStateRec}
    {fs : FS} {digest : ByteSeq → String} {git : GitEnv}
    (h : (state.overallPass && state.testsPass && state.lintPass &&
      state.auditPass) = false) :
    shipMain opts state fs digest git =
      { exitCode := 1, integrity := none, prAttempted := false,
        dryRunEcho := false } := by
  unfold shipMain
  simp [h]

theorem shipMain_modified_deny {opts : ShipOptions}
    {state : VerifyStateRec} {fs : FS} {digest : ByteSeq → String}
    {git : GitEnv}
    (hg : (state.overallPass && state.testsPass && state.lintPass &&
      state.auditPass) = true)
    (hmod : (verifyFileIntegrity state.hashes fs digest).modified ≠ []) :
    shipMain opts state fs digest git =
      { exitCode := 1,
        integrity := some (verifyFileIntegrity state.hashes fs digest),
        prAttempted := false, dryRunEcho := false } := by
  unfold shipMain
  simp [hg, hmod]

theorem shipMain_missing_deny {opts : ShipOptions}
    {state : VerifyStateRec} {fs : FS} {digest : ByteSeq → String}
    {git : GitEnv}
    (hg : (state.overallPass && state.testsPass && state.lintPass &&
      state.auditPass) = true)
    (hmiss : (verifyFileIntegrity state.hashes fs digest).missing ≠ []) :
    shipMain opts state fs digest git =
      { exitCode := 1,
        integrity := some (verifyFileIntegrity state.hashes fs digest),
        prAttempted := false, dryRunEcho := false } := by
  rcases eq_or_ne (verifyFileIntegrity state.hashes fs digest).modified []
    with hm | hm
  · unfold shipMain
    simp [hg, hm, hmiss]
  · exact shipMain_modified_deny hg hm

theorem hashStep_mem {fs : FS} {digest : ByteSeq → String}
    {acc : List (String × String)} {file g h : String}
    (hm : (g, h) ∈ hashStep fs digest acc file) :
    (g, h) ∈ acc ∨ hashFile fs digest g = some h := by
  unfold hashStep at hm
  revert hm
  cases hcf : hashFile fs digest file with
  | none => exact Or.inl
  | some hh =>
    intro hm
    dsimp only at hm
    by_cases he : hh = ""
    · rw [if_pos he] at hm
      exact Or.inl hm
    · rw [if_neg he] at hm
      rcases List.mem_append.mp hm with hin | hin
      · exact Or.inl hin
      · simp only [List.mem_singleton, Prod.mk.injEq] at hin
        obtain ⟨rfl, rfl⟩ := hin
        exact Or.inr hcf

theorem foldl_hashStep_mem {fs : FS} {digest : ByteSeq → String}
    {g h : String} (files : List String) (acc : List (String × String))
    (hm : (g, h) ∈ files.foldl (hashStep fs digest) acc) :
    (g, h) ∈ acc ∨ hashFile fs digest g = some h := by
  induction files generalizing acc with
  | nil => exact Or.inl hm
  | cons f rest ih =>
    rw [List.foldl_cons] at hm
    rcases ih _ hm with hin | hh
    · exact hashStep_mem hin
    · exact Or.inr hh

theorem mem_buildFileHashes {fs : FS} {digest : ByteSeq → String}
    {g h : String} {files : List String}
    (hm : (g, h) ∈ buildFileHashes files fs digest) :
    hashFile fs digest g = some h := by
  rcases foldl_hashStep_mem files [] hm with hin | hh
  · cases hin
  · exact hh

theorem foldl_hashStep_skip {fs : FS} {digest : ByteSeq → String}
    {f : String} (hfail : hashFile fs digest f = none) :
    ∀ (files : List String) (acc : List (String × String)),
      files.foldl (hashStep fs digest) acc =
        (files.filter fun x => x != f).foldl (hashStep fs digest) acc := by
  intro files
  induction files with
  | nil => intro acc; rfl
  | cons g rest ih =>
    intro acc
    rw [List.foldl_cons, List.filter_cons]
    by_cases hgf : g = f
    · subst hgf
      have hstep : hashStep fs digest acc g = acc := by
        unfold hashStep
        rw [hfail]
      rw [hstep, if_neg (by simp)]
      exact ih acc
    · rw [if_pos (by simp [hgf]), List.foldl_cons]
      exact ih (hashStep fs digest acc g)

/-! Claim theorems for the ship phase and the snapshot. -/

/-- C4 counterexample: the record lists a.txt, whose on-disk content now
digests differently, but the record's gate summary failed — ship denies
at the gate check and never runs the integrity check, so the modified
file is neither classified nor reported, contrary to the claim as
stated. -/
theorem ship_modified_unreported :
    ("a.txt", "aaaaaaaa1111") ∈ stateCex.hashes ∧
    fsCex "a.txt" = .content [1] ∧
    digCex [1] ≠ "aaaaaaaa1111" ∧
    (shipMain (parseShipOptions []) stateCex fsCex digCex gitBasic).exitCode
        = 1 ∧
    (shipMain (parseShipOptions []) stateCex fsCex digCex gitBasic).integrity
        = none := by
  refine ⟨by decide, by decide, by decide, ?_, ?_⟩ <;> decide

/-- C4 (amended): in a ship run whose record gate summary passes, every
record-listed file whose current content digests differently is
classified as modified and reported with expected-vs-actual digest
prefixes, and the run denies (exit 1, no PR attempt); every
record-listed file absent from disk is classified as missing and the run
denies.  (When the gate summary fails, ship denies before the integrity
check, as the counterexample shows.) -/
theorem ship_integrity_deny (opts : ShipOptions) (state : VerifyStateRec)
    (fs : FS) (digest : ByteSeq → String) (git : GitEnv)
    (hOverall : state.overallPass = true) (hTests : state.testsPass = true)
    (hLint : state.lintPass = true) (hAudit : state.auditPass = true)
    (f eh : String) (hmem : (f, eh) ∈ state.hashes) :
    (∀ c, fs f = .content c → digest c ≠ eh →
      ∃ r, (shipMain opts state fs digest git).integrity = some r ∧
        ({ file := f, expected := strTake eh 8 ++ "...",
           actual := strTake (digest c) 8 ++ "..." } : ModEntry) ∈ r.modified ∧
        (shipMain opts state fs digest git).exitCode = 1 ∧
        (shipMain opts state fs digest git).prAttempted = false) ∧
    (fs f = .absent →
      ∃ r, (shipMain opts state fs digest git).integrity = some r ∧
        f ∈ r.missing ∧
        (shipMain opts state fs digest git).exitCode = 1 ∧
        (shipMain opts state fs digest git).prAttempted = false) := by
  have hg : (state.overallPass && state.testsPass && state.lintPass &&
      state.auditPass) = true := by
    simp [hOverall, hTests, hLint, hAudit]
  constructor
  · intro c hcontent hne
    have hck : checkFile fs digest f eh = .modified
        { file := f, expected := strTake eh 8 ++ "...",
          actual := strTake (digest c) 8 ++ "..." } := by
      simp [checkFile, existsSync, hashFile, hcontent, actualDisplay, hne]
    have hmm := modified_mem_of_checkFile hmem hck
    have hmodne : (verifyFileIntegrity state.hashes fs digest).modified
        ≠ [] := List.ne_nil_of_mem hmm
    rw [shipMain_modified_deny hg hmodne]
    exact ⟨verifyFileIntegrity state.hashes fs digest, rfl, hmm, rfl, rfl⟩
  · intro habs
    have hck : checkFile fs digest f eh = .missing := by
      simp [checkFile, existsSync, habs]
    have hmm := missing_mem_of_checkFile hmem hck
    have hmissne : (verifyFileIntegrity state.hashes fs digest).missing
        ≠ [] := List.ne_nil_of_mem hmm
    rw [shipMain_missing_deny hg hmissne]
    exact ⟨verifyFileIntegrity state.hashes fs digest, rfl, hmm, rfl, rfl⟩

/-- C4 witness: with all gates passing, a record listing a modified
a.txt and a deleted b.txt, ship reports a.txt with digest prefixes,
reports b.txt as missing, exits 1 and attempts no PR. -/
theorem ship_integrity_deny_witness :
    (∃ r, (shipMain (parseShipOptions ["--create-pr"]) stateMod fsCex digCex
        gitBasic).integrity = some r ∧
      ({ file := "a.txt", expected := strTake "aaaaaaaa1111" 8 ++ "...",
         actual := strTake (digCex [1]) 8 ++ "..." } : ModEntry)
        ∈ r.modified ∧
      (shipMain (parseShipOptions ["--create-pr"]) stateMod fsCex digCex
        gitBasic).exitCode = 1 ∧
      (shipMain (parseShipOptions ["--create-pr"]) stateMod fsCex digCex
        gitBasic).prAttempted = false) ∧
    (∃ r, (shipMain (parseShipOptions ["--create-pr"]) stateMod fsCex digCex
        gitBasic).integrity = some r ∧
      "b.txt" ∈ r.missing ∧
      (shipMain (parseShipOptions ["--create-pr"]) stateMod fsCex digCex
        gitBasic).exitCode = 1 ∧
      (shipMain (parseShipOptions ["--create-pr"]) stateMod fsCex digCex
        gitBasic).prAttempted = false) :=
  ⟨(ship_integrity_deny (parseShipOptions ["--create-pr"]) stateMod fsCex
      digCex gitBasic rfl rfl rfl rfl "a.txt" "aaaaaaaa1111"
      (by decide)).1 [1] (by decide) (by decide),
   (ship_integrity_deny (parseShipOptions ["--create-pr"]) stateMod fsCex
      digCex gitBasic rfl rfl rfl rfl "b.txt" "dddddddd2222"
      (by decide)).2 (by decide)⟩

/-- C5: a Denied ship run — any gate flag false in the record summary,
or at least one modified or missing file — never invokes
`createPullRequest` (so no release action and no dry-run echo of the
planned gh command) and exits 1. -/
theorem ship_denied_no_release (opts : ShipOptions) (state : VerifyStateRec)
    (fs : FS) (digest : ByteSeq → String) (git : GitEnv)
    (h : state.overallPass = false ∨ state.testsPass = false ∨
         state.lintPass = false ∨ state.auditPass = false ∨
         (verifyFileIntegrity state.hashes fs digest).modified ≠ [] ∨
         (verifyFileIntegrity state.hashes fs digest).missing ≠ []) :
    (shipMain opts state fs digest git).prAttempted = false ∧
    (shipMain opts state fs digest git).dryRunEcho = false ∧
    (shipMain opts state fs digest git).exitCode = 1 := by
  by_cases hg : (state.overallPass && state.testsPass && state.lintPass &&
      state.auditPass) = false
  · rw [shipMain_gate_fail hg]
    exact ⟨rfl, rfl, rfl⟩
  · have hg2 : (state.overallPass && state.testsPass && state.lintPass &&
        state.auditPass) = true := by
      rcases Bool.eq_false_or_eq_true (state.overallPass && state.testsPass
        && state.lintPass && state.auditPass) with hx | hx
      · exact hx
      · exact absurd hx hg
    have hflags := hg2
    simp only [Bool.and_eq_true] at hflags
    obtain ⟨⟨⟨hO, hT⟩, hL⟩, hA⟩ := hflags
    rcases h with hf | hf | hf | hf | hf | hf
    · rw [hO] at hf; cases hf
    · rw [hT] at hf; cases hf
    · rw [hL] at hf; cases hf
    · rw [hA] at hf; cases hf
    · rw [shipMain_modified_deny hg2 hf]
      exact ⟨rfl, rfl, rfl⟩
    · rw [shipMain_missing_deny hg2 hf]
      exact ⟨rfl, rfl, rfl⟩

/-- C5 witness: a run with the verification gate failed, invoked with
both the create-PR and dry-run options, still performs no PR attempt,
prints no dry-run echo, and exits 1. -/
theorem ship_denied_no_release_witness :
    (shipMain (parseShipOptions ["--create-pr", "--dry-run"]) stateCex fsCex
        digCex gitBasic).prAttempted = false ∧
    (shipMain (parseShipOptions ["--create-pr", "--dry-run"]) stateCex fsCex
        digCex gitBasic).dryRunEcho = false ∧
    (shipMain (parseShipOptions ["--create-pr", "--dry-run"]) stateCex fsCex
        digCex gitBasic).exitCode = 1 :=
  ship_denied_no_release (parseShipOptions ["--create-pr", "--dry-run"])
    stateCex fsCex digCex gitBasic (Or.inl rfl)

/-- C10: a discovered file whose hash fails (null) is silently omitted
from the snapshot — it appears under no key, the snapshot (and hence the
persisted count) equals the one built without the file — and the ship
phase never integrity-checks it: it can appear neither in the missing
list nor as the file of a modified entry; the rest of the verify run is
unaffected. -/
theorem unreadable_file_omitted (files : List String) (fs : FS)
    (digest : ByteSeq → String) (f : String)
    (_hmem : f ∈ files) (hfail : hashFile fs digest f = none) :
    (∀ eh, (f, eh) ∉ buildFileHashes files fs digest) ∧
    buildFileHashes files fs digest =
      buildFileHashes (files.filter fun x => x != f) fs digest ∧
    ∀ (fs2 : FS) (digest2 : ByteSeq → String),
      f ∉ (verifyFileIntegrity (buildFileHashes files fs digest)
        fs2 digest2).missing ∧
      ∀ e ∈ (verifyFileIntegrity (buildFileHashes files fs digest)
        fs2 digest2).modified, e.file ≠ f := by
  have hkeys : ∀ eh, (f, eh) ∉ buildFileHashes files fs digest := by
    intro eh hm
    have hsome := mem_buildFileHashes hm
    rw [hfail] at hsome
    cases hsome
  refine ⟨hkeys, ?_, ?_⟩
  · exact foldl_hashStep_skip hfail files []
  · intro fs2 digest2
    constructor
    · intro hin
      obtain ⟨eh, hm⟩ := missing_subset_keys hin
      exact hkeys eh hm
    · intro e hm heq
      obtain ⟨eh, hm2⟩ := modified_file_keys hm
      rw [heq] at hm2
      exact hkeys eh hm2

/-- C10 witness: in a run discovering good.txt and an unreadable
bad.txt, the snapshot carries no entry for bad.txt, equals the snapshot
of the run without it, and the ship-phase integrity check never flags
bad.txt as missing. -/
theorem unreadable_file_omitted_witness :
    ("bad.txt", "abcd1234") ∉ buildFileHashes filesW10 fsW10 digW10 ∧
    buildFileHashes filesW10 fsW10 digW10 =
      buildFileHashes (filesW10.filter fun x => x != "bad.txt") fsW10
        digW10 ∧
    "bad.txt" ∉ (verifyFileIntegrity (buildFileHashes filesW10 fsW10 digW10)
      fsW10 digW10).missing :=
  ⟨(unreadable_file_omitted filesW10 fsW10 digW10 "bad.txt" (by decide)
      (by decide)).1 "abcd1234",
   (unreadable_file_omitted filesW10 fsW10 digW10 "bad.txt" (by decide)
      (by decide)).2.1,
   ((unreadable_file_omitted filesW10 fsW10 digW10 "bad.txt" (by decide)
      (by decide)).2.2 fsW10 digW10).1⟩

set_option maxRecDepth 8192 in
/-- C3: the strategies are tried strictly in order with first success
winning — whenever the whole (trimmed) input parses, that parse is the
result; on the payload itself strategy 1 yields the verdict; on the
payload wrapped in a fenced block strategy 1 fails, strategy 2 fires
and yields the identical verdict; on the payload embedded in prose with
nested braces inside its string values strategies 1 and 2 fail, and
strategy 3's depth tracking recovers the full, correctly-bounded
payload, again the identical verdict. -/
theorem parser_fallback_ordering :
    (∀ (s : String) (v : Json), strategy1 s = some v →
      parseGeminiResponse s = v) ∧
    strategy1 payloadC3 = some verdictC3 ∧
    parseGeminiResponse payloadC3 = verdictC3 ∧
    (strategy1 fencedC3 = none ∧ strategy2 fencedC3 = some verdictC3 ∧
      parseGeminiResponse fencedC3 = verdictC3) ∧
    (strategy1 proseC3 = none ∧ strategy2 proseC3 = none ∧
      strategy3 proseC3 = some verdictC3 ∧
      parseGeminiResponse proseC3 = verdictC3) := by
  refine ⟨?_, rfl, rfl, ⟨rfl, rfl, rfl⟩, ⟨rfl, rfl, rfl, rfl⟩⟩
  intro s v h
  unfold parseGeminiResponse
  rw [h]

/-- C3 witness: the first-success rule applied at the concrete payload,
with strategy 1 succeeding there discharged by the theorem itself. -/
theorem parser_fallback_ordering_witness :
    parseGeminiResponse payloadC3 = verdictC3 :=
  parser_fallback_ordering.1 payloadC3 verdictC3
    parser_fallback_ordering.2.1

end Pipeline
